import Mathlib

/-!
Verification of the client-side event ordering and playback engine of the
llm-congress frontend (`src/frontend/src/store/debateStore.ts`).

The Zustand store is embedded shallowly: the store's state object becomes the
structure `DebateState`, and each store action becomes a pure function
`DebateState → DebateState`.  JavaScript `setTimeout` callbacks are modelled by
recording the armed timer in the `queueProcessorTimeout` field (as the code
itself does) together with an explicit `fireTimer` transition that runs the
callback; the deferred re-check scheduled by `closeVotingResultModal` is
modelled by a counter of pending checks and a `fireResumeCheck` transition.

Three history (ghost) fields are added to the state for stating trace
properties; they are write-only instrumentation and never influence control
flow: `enqueuedLog` records every event ever appended to the queue,
`processedLog` records every event ever dequeued by `processEventQueue` (in
dequeue order), and `pendingResumeChecks` counts the deferred modal-close
re-checks that have been scheduled but have not run yet.

TypeScript optional string/boolean display fields (`streamingContent?`,
`isSpeaking?`) are modelled as `String` / `Bool` with `""` / `false` for the
absent value: the code only ever writes `""` / `false` to clear them and never
distinguishes `undefined` from the cleared value.  Wall-clock values
(`Date.now()`, ISO timestamps) enter through an explicit `now` parameter where
the code reads the clock; the ISO timestamp stored in a `VoteCast` audit
record is not modelled (no claim mentions it).
-/

inductive Role where
  | proposition
  | opposition
deriving DecidableEq, Repr

inductive Phase where
  | debating
  | voting
deriving DecidableEq, Repr

/-- Vote values, also used for an agent's `voteStatus` field (`'in' | 'out'`). -/
inductive Vote where
  | «in»
  | out
deriving DecidableEq, Repr

inductive Decision where
  | stay
  | «switch»
deriving DecidableEq, Repr

/-- Nested vote tally object `vote_tally: { in: number; out: number }`. -/
structure VoteTally where
  «in» : Nat
  out : Nat
deriving DecidableEq, Repr

/-- A vote cast BY an agent (`voteCast` field of `Agent`). -/
structure VoteCastBy where
  vote : Vote
  reasoning : String
deriving DecidableEq, Repr

/-- Proposition agent record of the store. -/
structure Agent where
  id : String
  name : String
  personality : Option String := none
  icon : Option String := none
  streamingContent : String := ""
  isSpeaking : Bool := false
  voteStatus : Option Vote := none
  voteCast : Option VoteCastBy := none
deriving DecidableEq, Repr

/-- Opposition agent record of the store (no vote fields). -/
structure OppositionAgent where
  id : String
  name : String
  personality : Option String := none
  icon : Option String := none
  streamingContent : String := ""
  isSpeaking : Bool := false
deriving DecidableEq, Repr

/-- Audit-list entry for a cast vote (the ISO wall-clock timestamp the code
also stores is not modelled). -/
structure VoteCast where
  voter_id : String
  voter_name : String
  vote : Vote
  reasoning : String
deriving DecidableEq, Repr

/-- State of the voting-result overlay. -/
structure VotingResultModal where
  isOpen : Bool
  agentName : String
  decision : Option Decision
  inVotes : Nat
  outVotes : Nat
  totalVotes : Nat
  newAgentName : Option String
  reason : Option String
deriving DecidableEq, Repr

/-- The five queueable event types of `QueuedEventType`. -/
inductive QueuedEventType where
  | agent_message_complete
  | voting_initiated
  | vote_cast
  | voting_complete
  | agent_switch
deriving DecidableEq, Repr

/-- Optional payload fields of an event.  The TypeScript `QueuedEvent`
interface declares them inline next to `type`/`timestamp`; they are grouped
here so the same payload can sit in an incoming SSE event. -/
structure EventData where
  agent_id : Option String := none
  agent_name : Option String := none
  role : Option Role := none
  content : Option String := none
  evaluating_agent_id : Option String := none
  evaluating_agent_name : Option String := none
  round_number : Option Nat := none
  observer_count : Option Nat := none
  voter_id : Option String := none
  voter_name : Option String := none
  vote : Option Vote := none
  reasoning : Option String := none
  decision : Option Decision := none
  in_votes : Option Nat := none
  out_votes : Option Nat := none
  vote_tally : Option VoteTally := none
  old_agent_id : Option String := none
  old_agent_name : Option String := none
  new_agent_id : Option String := none
  new_agent_name : Option String := none
  reason : Option String := none
deriving DecidableEq, Repr

/-- An element of the playback queue: event type, `Date.now()` stamp taken at
enqueue time, and the spread payload. -/
structure QueuedEvent where
  type : QueuedEventType
  timestamp : Nat
  data : EventData
deriving DecidableEq, Repr

/-- Raw server-sent event: a string discriminator plus payload. -/
structure SSEEvent where
  event : String
  data : EventData
deriving DecidableEq, Repr

/-- The armed `setTimeout` of the queue processor: either the end-of-message
clearing callback of an `agent_message_complete` display (capturing the
event's `role` and armed with the reading-time delay), or the fixed
1000 ms advance after a `vote_cast`. -/
inductive TimerKind where
  | messageClear (role : Option Role) (delayMs : Nat)
  | voteAdvance (delayMs : Nat)
deriving DecidableEq, Repr

/-- The store state (`DebateState` interface), restricted to data fields; the
function-valued `cancelDebate` handle and the loading flag for the roster
fetch carry no playback semantics and the latter is kept only for frame
completeness.  The final three fields are ghost instrumentation (see the
header comment). -/
structure DebateState where
  topic : String
  duration : Nat
  agents : List Agent
  oppositionAgent : Option OppositionAgent
  isLoadingAgents : Bool
  isDebating : Bool
  phase : Phase
  currentSpeakerId : Option String
  currentSpeakerRole : Option Role
  currentEvaluatingAgentId : Option String
  eventQueue : List QueuedEvent
  isProcessingQueue : Bool
  isPaused : Bool
  queueProcessorTimeout : Option TimerKind
  voteCasts : List VoteCast
  votingResultModal : VotingResultModal
  enqueuedLog : List QueuedEvent
  processedLog : List QueuedEvent
  pendingResumeChecks : Nat
deriving DecidableEq, Repr

/-- Closed defaults of the modal, as written both in the store's initial state
and in `closeVotingResultModal`. -/
def closedModalDefaults : VotingResultModal :=
  { isOpen := false
    agentName := ""
    decision := none
    inVotes := 0
    outVotes := 0
    totalVotes := 0
    newAgentName := none
    reason := none }

/-- Initial store state (the literal passed to `create`). -/
def initialState : DebateState :=
  { topic := ""
    duration := 3
    agents := []
    oppositionAgent := none
    isLoadingAgents := false
    isDebating := false
    phase := Phase.debating
    currentSpeakerId := none
    currentSpeakerRole := none
    currentEvaluatingAgentId := none
    eventQueue := []
    isProcessingQueue := false
    isPaused := false
    queueProcessorTimeout := none
    voteCasts := []
    votingResultModal := closedModalDefaults
    enqueuedLog := []
    processedLog := []
    pendingResumeChecks := 0 }

/-- Split a character sequence at every character satisfying `p`, keeping
empty tokens, as `String.split` does; defined structurally over the character
list so that it evaluates inside the kernel. -/
def splitChars (p : Char → Bool) : List Char → List (List Char)
  | [] => [[]]
  | c :: cs =>
    let r := splitChars p cs
    if p c then [] :: r
    else
      match r with
      | [] => [[c]]
      | w :: ws => (c :: w) :: ws

/-- Reading time of a message (`calculateReadingTime`): word count times
300 ms, clamped between 3000 ms and 15000 ms.  The word count mirrors
`content.split(/\s+/).filter((word) => word.length > 0).length` at the
character-list level: splitting on every whitespace character and dropping
empty tokens is the same as splitting on whitespace runs and dropping empty
tokens. -/
def calculateReadingTime (content : String) : Nat :=
  let wordCount :=
    ((splitChars (fun c => c.isWhitespace) content.toList).filter
      (fun word => word.length > 0)).length
  let readingTime := max (wordCount * 300) 3000
  min readingTime 15000

/-- The `agent_message_complete` branch of `processEventQueue`, including the
`if (!content) break;` guard (JavaScript `!content` is true exactly for the
absent and the empty string). -/
def handleAgentMessageComplete (e : QueuedEvent) (s : DebateState) : DebateState :=
  match e.data.content with
  | none => s
  | some content =>
    if content = "" then s
    else
      let readingTime := calculateReadingTime content
      match e.data.role, s.oppositionAgent with
      | some Role.opposition, some opp =>
        { s with
          agents := s.agents.map (fun a =>
            { a with streamingContent := "", isSpeaking := false })
          oppositionAgent :=
            some { opp with streamingContent := content, isSpeaking := true }
          currentSpeakerId := e.data.agent_id
          currentSpeakerRole := some Role.opposition
          queueProcessorTimeout :=
            some (TimerKind.messageClear e.data.role readingTime) }
      | _, _ =>
        { s with
          agents := s.agents.map (fun a =>
            if e.data.agent_id = some a.id ∨ e.data.agent_name = some a.name
            then { a with streamingContent := content, isSpeaking := true }
            else { a with streamingContent := "", isSpeaking := false })
          oppositionAgent := s.oppositionAgent.map (fun opp =>
            { opp with streamingContent := "", isSpeaking := false })
          currentSpeakerId := e.data.agent_id
          currentSpeakerRole := some Role.proposition
          queueProcessorTimeout :=
            some (TimerKind.messageClear e.data.role readingTime) }

/-- The state mutation of the `voting_initiated` branch (the branch then
recurses into `processEventQueue`, which is kept in the main definition). -/
def applyVotingInitiated (e : QueuedEvent) (s : DebateState) : DebateState :=
  { s with
    phase := Phase.voting
    currentEvaluatingAgentId := e.data.evaluating_agent_id
    agents := s.agents.map (fun a =>
      { a with voteStatus := none, voteCast := none,
               streamingContent := "", isSpeaking := false })
    oppositionAgent := s.oppositionAgent.map (fun opp =>
      { id := opp.id, name := opp.name, personality := opp.personality,
        icon := opp.icon, streamingContent := "", isSpeaking := false })
    voteCasts := []
    currentSpeakerId := none
    currentSpeakerRole := none }

/-- The `vote_cast` branch of `processEventQueue`: append an audit record,
mark the voter's own `voteCast`, and arm the fixed 1 second advance timer. -/
def handleVoteCast (e : QueuedEvent) (s : DebateState) : DebateState :=
  let newVoteCast : VoteCast :=
    { voter_id := e.data.voter_id.getD ""
      voter_name := e.data.voter_name.getD ""
      vote := e.data.vote.getD Vote.out
      reasoning := e.data.reasoning.getD "" }
  { s with
    voteCasts := s.voteCasts ++ [newVoteCast]
    agents := s.agents.map (fun a =>
      if e.data.voter_id = some a.id
      then { a with voteCast := some { vote := e.data.vote.getD Vote.out,
                                       reasoning := e.data.reasoning.getD "" } }
      else a)
    queueProcessorTimeout := some (TimerKind.voteAdvance 1000) }

/-- The `voting_complete` branch of `processEventQueue`.  Vote counts come
from `in_votes ?? vote_tally?.in ?? 0` (and the analogous `out` chain): the
flat field wins when present, the nested tally is the fallback, 0 the
default. -/
def handleVotingComplete (e : QueuedEvent) (s : DebateState) : DebateState :=
  let inVotes := e.data.in_votes.getD ((e.data.vote_tally.map VoteTally.«in»).getD 0)
  let outVotes := e.data.out_votes.getD ((e.data.vote_tally.map VoteTally.out).getD 0)
  let totalVotes := inVotes + outVotes
  { s with
    votingResultModal :=
      { isOpen := true
        agentName := e.data.evaluating_agent_name.getD "Agent"
        decision := e.data.decision
        inVotes := inVotes
        outVotes := outVotes
        totalVotes := totalVotes
        newAgentName := none
        reason := none }
    agents := s.agents.map (fun a =>
      if e.data.evaluating_agent_id = some a.id
      then { a with
             voteCast := none
             voteStatus := some (if e.data.decision = some Decision.switch
                                 then Vote.out else Vote.«in») }
      else { a with voteCast := none })
    phase := Phase.debating
    currentEvaluatingAgentId := none
    isPaused := true
    isProcessingQueue := false }

/-- The `agent_switch` branch of `processEventQueue`: counts come from the
nested tally only, and the decision is recomputed locally as `switch` exactly
when `outVotes > inVotes`. -/
def handleAgentSwitch (e : QueuedEvent) (s : DebateState) : DebateState :=
  let inVotes := (e.data.vote_tally.map VoteTally.«in»).getD 0
  let outVotes := (e.data.vote_tally.map VoteTally.out).getD 0
  let totalVotes := inVotes + outVotes
  let decision := if outVotes > inVotes then Decision.switch else Decision.stay
  { s with
    votingResultModal :=
      { isOpen := true
        agentName := e.data.old_agent_name.getD "Agent"
        decision := some decision
        inVotes := inVotes
        outVotes := outVotes
        totalVotes := totalVotes
        newAgentName := e.data.new_agent_name
        reason := some (e.data.reason.getD "") }
    agents := s.agents.map (fun a => { a with voteCast := none })
    isPaused := true
    isProcessingQueue := false }

/-- The queue drain loop (`processEventQueue` action).  Stops when paused or
when the queue is empty; otherwise marks itself processing, removes the head,
and dispatches on the head's type.  Only the `voting_initiated` branch
re-enters the loop synchronously; the message and vote branches hand over to
an armed timer, and the two modal branches deliberately stop. -/
def processEventQueue (s : DebateState) : DebateState :=
  if s.isPaused then { s with isProcessingQueue := false }
  else
    match hq : s.eventQueue with
    | [] => { s with isProcessingQueue := false }
    | currentEvent :: remainingQueue =>
      let s1 : DebateState :=
        { s with isProcessingQueue := true
                 eventQueue := remainingQueue
                 processedLog := s.processedLog ++ [currentEvent] }
      match currentEvent.type with
      | QueuedEventType.agent_message_complete =>
          handleAgentMessageComplete currentEvent s1
      | QueuedEventType.voting_initiated =>
          processEventQueue (applyVotingInitiated currentEvent s1)
      | QueuedEventType.vote_cast => handleVoteCast currentEvent s1
      | QueuedEventType.voting_complete => handleVotingComplete currentEvent s1
      | QueuedEventType.agent_switch => handleAgentSwitch currentEvent s1
termination_by s.eventQueue.length
decreasing_by
  simp only [applyVotingInitiated, hq]
  simp [List.length_cons]

/-- The classifier: maps the string discriminator of an SSE event to a
queueable type when it is one of the five entries of `queueableEvents`
(mirrors `queueableEvents.includes(event.event)` followed by the cast). -/
def parseQueuedEventType (name : String) : Option QueuedEventType :=
  if name = "agent_message_complete" then some QueuedEventType.agent_message_complete
  else if name = "voting_initiated" then some QueuedEventType.voting_initiated
  else if name = "vote_cast" then some QueuedEventType.vote_cast
  else if name = "voting_complete" then some QueuedEventType.voting_complete
  else if name = "agent_switch" then some QueuedEventType.agent_switch
  else none

/-- The `handleSSEEvent` action.  Queueable events are appended to the tail of
the queue (and to the ghost enqueue log), and the drain loop is started unless
already running; `debate_complete` is applied immediately without touching the
queue; every other event name is ignored by the store. -/
def handleSSEEvent (now : Nat) (ev : SSEEvent) (s : DebateState) : DebateState :=
  match parseQueuedEventType ev.event with
  | some t =>
    let queuedEvent : QueuedEvent := { type := t, timestamp := now, data := ev.data }
    let s1 := { s with eventQueue := s.eventQueue ++ [queuedEvent]
                       enqueuedLog := s.enqueuedLog ++ [queuedEvent] }
    if s1.isProcessingQueue then s1 else processEventQueue s1
  | none =>
    if ev.event = "debate_complete" then
      { s with isDebating := false
               currentSpeakerId := none
               currentSpeakerRole := none }
    else s

/-- The `skipCurrentEvent` action: cancel the armed timer, clear the displayed
content of every proposition agent and of the opposition, then force the drain
loop to run. -/
def skipCurrentEvent (s : DebateState) : DebateState :=
  let s1 := { s with queueProcessorTimeout := none }
  let s2 := { s1 with
    agents := s1.agents.map (fun a =>
      { a with streamingContent := "", isSpeaking := false })
    oppositionAgent := s1.oppositionAgent.map (fun opp =>
      { opp with streamingContent := "", isSpeaking := false }) }
  processEventQueue s2

/-- The `togglePause` action: pausing cancels the armed timer and stops the
loop without touching displayed content; resuming clears the flag and
restarts the loop. -/
def togglePause (s : DebateState) : DebateState :=
  if s.isPaused then
    processEventQueue { s with isPaused := false }
  else
    { s with queueProcessorTimeout := none, isPaused := true,
             isProcessingQueue := false }

/-- The `closeVotingResultModal` action: reset the modal to its closed
defaults and clear the pause flag; when the snapshot taken before the reset
has phase `debating`, a non-empty queue, and no active processing, schedule a
deferred resume check (the 50 ms `setTimeout`), modelled by incrementing
`pendingResumeChecks`. -/
def closeVotingResultModal (s : DebateState) : DebateState :=
  let s1 := { s with votingResultModal := closedModalDefaults, isPaused := false }
  if s.phase = Phase.debating ∧ s.eventQueue.length > 0 ∧ s.isProcessingQueue = false
  then { s1 with pendingResumeChecks := s1.pendingResumeChecks + 1 }
  else s1

/-- Run one deferred resume check scheduled by `closeVotingResultModal`: it
re-reads the state and restarts the drain loop only when the store is neither
paused nor already processing. -/
def fireResumeCheck (s : DebateState) : DebateState :=
  match s.pendingResumeChecks with
  | 0 => s
  | n + 1 =>
    let s1 := { s with pendingResumeChecks := n }
    if s1.isPaused = false ∧ s1.isProcessingQueue = false
    then processEventQueue s1
    else s1

/-- Run the armed `setTimeout` callback of the queue processor.  The
end-of-message callback clears the displayed content of the surface chosen by
the captured role and re-enters the drain loop; the vote-cast callback just
re-enters the loop.  Firing consumes the timer. -/
def fireTimer (s : DebateState) : DebateState :=
  match s.queueProcessorTimeout with
  | none => s
  | some (TimerKind.messageClear role _) =>
    let s1 := { s with queueProcessorTimeout := none }
    let s2 :=
      match role, s1.oppositionAgent with
      | some Role.opposition, some opp =>
        { s1 with
          oppositionAgent :=
            some { opp with streamingContent := "", isSpeaking := false } }
      | _, _ =>
        { s1 with
          agents := s1.agents.map (fun a =>
            { a with streamingContent := "", isSpeaking := false }) }
    processEventQueue s2
  | some (TimerKind.voteAdvance _) =>
    processEventQueue { s with queueProcessorTimeout := none }

/-- The `stopDebateStream` action restricted to store state: cancel the armed
timer, clear the queue and reset the processing flags. -/
def stopDebateStream (s : DebateState) : DebateState :=
  { s with isDebating := false
           eventQueue := []
           isProcessingQueue := false
           isPaused := false
           queueProcessorTimeout := none }

/-- One step of the playback engine during a session: delivery of one SSE
event, firing of the armed display timer, firing of one deferred modal-close
resume check, or one of the three user actions (skip, pause toggle, modal
close). -/
inductive Step : DebateState → DebateState → Prop where
  | sse (now : Nat) (ev : SSEEvent) (s : DebateState) :
      Step s (handleSSEEvent now ev s)
  | timerFires (s : DebateState) : Step s (fireTimer s)
  | resumeCheckFires (s : DebateState) : Step s (fireResumeCheck s)
  | skip (s : DebateState) : Step s (skipCurrentEvent s)
  | pauseToggle (s : DebateState) : Step s (togglePause s)
  | modalClose (s : DebateState) : Step s (closeVotingResultModal s)

/-! Concrete fixtures used by the witness and counterexample theorems. -/

def exAgentA : Agent := { id := "a1", name := "Alpha" }

def exAgentB : Agent := { id := "a2", name := "Beta" }

def exOpposition : OppositionAgent := { id := "opp", name := "Contrarian" }

def exVoteSSE : SSEEvent :=
  { event := "vote_cast",
    data := { voter_id := some "a1", voter_name := some "Alpha",
              vote := some Vote.«in», reasoning := some "solid point" } }

def exMsgEvent : QueuedEvent :=
  { type := QueuedEventType.agent_message_complete, timestamp := 1,
    data := { agent_id := some "a1", agent_name := some "Alpha",
              role := some Role.proposition, content := some "Hello world arena" } }

def exVoteEvent : QueuedEvent :=
  { type := QueuedEventType.vote_cast, timestamp := 2,
    data := { voter_id := some "a2", voter_name := some "Beta",
              vote := some Vote.out, reasoning := some "weak argument" } }

def exEmptyMsgEvent : QueuedEvent :=
  { type := QueuedEventType.agent_message_complete, timestamp := 3,
    data := { agent_id := some "a1", agent_name := some "Alpha",
              role := some Role.proposition, content := some "" } }

def exTallyEvent : QueuedEvent :=
  { type := QueuedEventType.voting_complete, timestamp := 4,
    data := { evaluating_agent_id := some "a1", evaluating_agent_name := some "Alpha",
              decision := some Decision.stay, in_votes := some 1, out_votes := some 2,
              vote_tally := some { «in» := 5, out := 7 } } }

def exSwitchDecisionEvent : QueuedEvent :=
  { type := QueuedEventType.voting_complete, timestamp := 5,
    data := { evaluating_agent_id := some "a1", evaluating_agent_name := some "Alpha",
              decision := some Decision.switch, in_votes := some 1, out_votes := some 3 } }

def exAgentSwitchEvent : QueuedEvent :=
  { type := QueuedEventType.agent_switch, timestamp := 6,
    data := { old_agent_id := some "a1", old_agent_name := some "Alpha",
              new_agent_id := some "a3", new_agent_name := some "Gamma",
              reason := some "voted out", vote_tally := some { «in» := 1, out := 2 } } }

def exBaseState : DebateState :=
  { initialState with agents := [exAgentA, exAgentB],
                      oppositionAgent := some exOpposition, isDebating := true }

def exTallyState : DebateState :=
  { exBaseState with eventQueue := [exTallyEvent] }

def exSwitchState : DebateState :=
  { exBaseState with eventQueue := [exSwitchDecisionEvent] }

def exAgentSwitchState : DebateState :=
  { exBaseState with eventQueue := [exAgentSwitchEvent] }

def exMsgState : DebateState :=
  { exBaseState with eventQueue := [exMsgEvent] }

def exEmptyMsgState : DebateState :=
  { exBaseState with eventQueue := [exEmptyMsgEvent, exVoteEvent] }

def exDrainState : DebateState :=
  { exBaseState with eventQueue := [exMsgEvent, exVoteEvent], isProcessingQueue := true }

def exBlockedState : DebateState :=
  { exBaseState with
    isPaused := true
    votingResultModal :=
      { isOpen := true, agentName := "Alpha", decision := some Decision.stay,
        inVotes := 2, outVotes := 1, totalVotes := 3,
        newAgentName := none, reason := none }
    eventQueue := [exMsgEvent] }

def exDebateCompleteSSE : SSEEvent :=
  { event := "debate_complete", data := {} }

/-- Forty-word message used for the reading-time examples. -/
def fortyWordMessage : String := String.intercalate " " (List.replicate 40 "word")

/-- Sixty-word message used for the reading-time examples. -/
def sixtyWordMessage : String := String.intercalate " " (List.replicate 60 "word")

/-- Word count as the spec describes it: split the content on whitespace runs
and drop empty tokens. -/
def wordCount (content : String) : Nat :=
  ((splitChars (fun c => c.isWhitespace) content.toList).filter
    (fun word => word.length > 0)).length

/-! Frame lemmas: the branch helpers never touch the queue, the ghost logs,
or the pending resume-check counter. -/

theorem handleAgentMessageComplete_eventQueue (e : QueuedEvent) (s : DebateState) :
    (handleAgentMessageComplete e s).eventQueue = s.eventQueue := by
  unfold handleAgentMessageComplete
  repeat' split
  all_goals rfl

theorem handleAgentMessageComplete_processedLog (e : QueuedEvent) (s : DebateState) :
    (handleAgentMessageComplete e s).processedLog = s.processedLog := by
  unfold handleAgentMessageComplete
  repeat' split
  all_goals rfl

theorem handleAgentMessageComplete_enqueuedLog (e : QueuedEvent) (s : DebateState) :
    (handleAgentMessageComplete e s).enqueuedLog = s.enqueuedLog := by
  unfold handleAgentMessageComplete
  repeat' split
  all_goals rfl

theorem handleAgentMessageComplete_pending (e : QueuedEvent) (s : DebateState) :
    (handleAgentMessageComplete e s).pendingResumeChecks = s.pendingResumeChecks := by
  unfold handleAgentMessageComplete
  repeat' split
  all_goals rfl

theorem handleAgentMessageComplete_isPaused (e : QueuedEvent) (s : DebateState) :
    (handleAgentMessageComplete e s).isPaused = s.isPaused := by
  unfold handleAgentMessageComplete
  repeat' split
  all_goals rfl

theorem handleAgentMessageComplete_isProcessingQueue (e : QueuedEvent) (s : DebateState) :
    (handleAgentMessageComplete e s).isProcessingQueue = s.isProcessingQueue := by
  unfold handleAgentMessageComplete
  repeat' split
  all_goals rfl

theorem applyVotingInitiated_eventQueue (e : QueuedEvent) (s : DebateState) :
    (applyVotingInitiated e s).eventQueue = s.eventQueue := rfl

theorem applyVotingInitiated_processedLog (e : QueuedEvent) (s : DebateState) :
    (applyVotingInitiated e s).processedLog = s.processedLog := rfl

theorem applyVotingInitiated_enqueuedLog (e : QueuedEvent) (s : DebateState) :
    (applyVotingInitiated e s).enqueuedLog = s.enqueuedLog := rfl

theorem applyVotingInitiated_pending (e : QueuedEvent) (s : DebateState) :
    (applyVotingInitiated e s).pendingResumeChecks = s.pendingResumeChecks := rfl

theorem handleVoteCast_eventQueue (e : QueuedEvent) (s : DebateState) :
    (handleVoteCast e s).eventQueue = s.eventQueue := rfl

theorem handleVoteCast_processedLog (e : QueuedEvent) (s : DebateState) :
    (handleVoteCast e s).processedLog = s.processedLog := rfl

theorem handleVoteCast_enqueuedLog (e : QueuedEvent) (s : DebateState) :
    (handleVoteCast e s).enqueuedLog = s.enqueuedLog := rfl

theorem handleVoteCast_pending (e : QueuedEvent) (s : DebateState) :
    (handleVoteCast e s).pendingResumeChecks = s.pendingResumeChecks := rfl

theorem handleVoteCast_isPaused (e : QueuedEvent) (s : DebateState) :
    (handleVoteCast e s).isPaused = s.isPaused := rfl

theorem handleVoteCast_isProcessingQueue (e : QueuedEvent) (s : DebateState) :
    (handleVoteCast e s).isProcessingQueue = s.isProcessingQueue := rfl

theorem handleVotingComplete_eventQueue (e : QueuedEvent) (s : DebateState) :
    (handleVotingComplete e s).eventQueue = s.eventQueue := rfl

theorem handleVotingComplete_processedLog (e : QueuedEvent) (s : DebateState) :
    (handleVotingComplete e s).processedLog = s.processedLog := rfl

theorem handleVotingComplete_enqueuedLog (e : QueuedEvent) (s : DebateState) :
    (handleVotingComplete e s).enqueuedLog = s.enqueuedLog := rfl

theorem handleVotingComplete_pending (e : QueuedEvent) (s : DebateState) :
    (handleVotingComplete e s).pendingResumeChecks = s.pendingResumeChecks := rfl

theorem handleVotingComplete_isPaused (e : QueuedEvent) (s : DebateState) :
    (handleVotingComplete e s).isPaused = true := rfl

theorem handleAgentSwitch_eventQueue (e : QueuedEvent) (s : DebateState) :
    (handleAgentSwitch e s).eventQueue = s.eventQueue := rfl

theorem handleAgentSwitch_processedLog (e : QueuedEvent) (s : DebateState) :
    (handleAgentSwitch e s).processedLog = s.processedLog := rfl

theorem handleAgentSwitch_enqueuedLog (e : QueuedEvent) (s : DebateState) :
    (handleAgentSwitch e s).enqueuedLog = s.enqueuedLog := rfl

theorem handleAgentSwitch_pending (e : QueuedEvent) (s : DebateState) :
    (handleAgentSwitch e s).pendingResumeChecks = s.pendingResumeChecks := rfl

theorem handleAgentSwitch_isPaused (e : QueuedEvent) (s : DebateState) :
    (handleAgentSwitch e s).isPaused = true := rfl


/-! Shape lemmas: one unfolding of `processEventQueue` for each control path.
The state (and head event) are destructured so that the definitional matches
reduce, avoiding the dependent match on the queue. -/

theorem processEventQueue_eq_paused (s : DebateState) (hp : s.isPaused = true) :
    processEventQueue s = { s with isProcessingQueue := false } := by
  obtain ⟨t, d, ag, opp, la, idb, ph, cs, cr, ce, q, pr, pa, ti, vc, vm, el, pl, pc⟩ := s
  cases hp
  rw [processEventQueue.eq_def]
  rfl

theorem processEventQueue_eq_nil (s : DebateState) (hp : s.isPaused = false)
    (hq : s.eventQueue = []) :
    processEventQueue s = { s with isProcessingQueue := false } := by
  obtain ⟨t, d, ag, opp, la, idb, ph, cs, cr, ce, q, pr, pa, ti, vc, vm, el, pl, pc⟩ := s
  cases hp
  cases hq
  rw [processEventQueue.eq_def]
  rfl

theorem processEventQueue_eq_message (s : DebateState) (e : QueuedEvent)
    (rest : List QueuedEvent) (hp : s.isPaused = false) (hq : s.eventQueue = e :: rest)
    (ht : e.type = QueuedEventType.agent_message_complete) :
    processEventQueue s = handleAgentMessageComplete e
      { s with isProcessingQueue := true, eventQueue := rest,
               processedLog := s.processedLog ++ [e] } := by
  obtain ⟨t, d, ag, opp, la, idb, ph, cs, cr, ce, q, pr, pa, ti, vc, vm, el, pl, pc⟩ := s
  obtain ⟨ty, ts, da⟩ := e
  cases hp
  cases hq
  cases ht
  rw [processEventQueue.eq_def]
  rfl

theorem processEventQueue_eq_initiated (s : DebateState) (e : QueuedEvent)
    (rest : List QueuedEvent) (hp : s.isPaused = false) (hq : s.eventQueue = e :: rest)
    (ht : e.type = QueuedEventType.voting_initiated) :
    processEventQueue s = processEventQueue (applyVotingInitiated e
      { s with isProcessingQueue := true, eventQueue := rest,
               processedLog := s.processedLog ++ [e] }) := by
  obtain ⟨t, d, ag, opp, la, idb, ph, cs, cr, ce, q, pr, pa, ti, vc, vm, el, pl, pc⟩ := s
  obtain ⟨ty, ts, da⟩ := e
  cases hp
  cases hq
  cases ht
  rw [processEventQueue.eq_def]
  rfl

theorem processEventQueue_eq_vote_cast (s : DebateState) (e : QueuedEvent)
    (rest : List QueuedEvent) (hp : s.isPaused = false) (hq : s.eventQueue = e :: rest)
    (ht : e.type = QueuedEventType.vote_cast) :
    processEventQueue s = handleVoteCast e
      { s with isProcessingQueue := true, eventQueue := rest,
               processedLog := s.processedLog ++ [e] } := by
  obtain ⟨t, d, ag, opp, la, idb, ph, cs, cr, ce, q, pr, pa, ti, vc, vm, el, pl, pc⟩ := s
  obtain ⟨ty, ts, da⟩ := e
  cases hp
  cases hq
  cases ht
  rw [processEventQueue.eq_def]
  rfl

theorem processEventQueue_eq_voting_complete (s : DebateState) (e : QueuedEvent)
    (rest : List QueuedEvent) (hp : s.isPaused = false) (hq : s.eventQueue = e :: rest)
    (ht : e.type = QueuedEventType.voting_complete) :
    processEventQueue s = handleVotingComplete e
      { s with isProcessingQueue := true, eventQueue := rest,
               processedLog := s.processedLog ++ [e] } := by
  obtain ⟨t, d, ag, opp, la, idb, ph, cs, cr, ce, q, pr, pa, ti, vc, vm, el, pl, pc⟩ := s
  obtain ⟨ty, ts, da⟩ := e
  cases hp
  cases hq
  cases ht
  rw [processEventQueue.eq_def]
  rfl

theorem processEventQueue_eq_agent_switch (s : DebateState) (e : QueuedEvent)
    (rest : List QueuedEvent) (hp : s.isPaused = false) (hq : s.eventQueue = e :: rest)
    (ht : e.type = QueuedEventType.agent_switch) :
    processEventQueue s = handleAgentSwitch e
      { s with isProcessingQueue := true, eventQueue := rest,
               processedLog := s.processedLog ++ [e] } := by
  obtain ⟨t, d, ag, opp, la, idb, ph, cs, cr, ce, q, pr, pa, ti, vc, vm, el, pl, pc⟩ := s
  obtain ⟨ty, ts, da⟩ := e
  cases hp
  cases hq
  cases ht
  rw [processEventQueue.eq_def]
  rfl

/-- Core bookkeeping facts about one run of the drain loop: the enqueue log
and the pending-check counter are untouched, the dequeued events move from the
front of the queue to the back of the processed log (so their concatenation is
invariant and the processed log only grows), and whenever the loop returns
neither paused nor processing it has emptied the queue. -/
theorem processEventQueue_facts (s : DebateState) :
    (processEventQueue s).enqueuedLog = s.enqueuedLog
  ∧ (processEventQueue s).processedLog ++ (processEventQueue s).eventQueue
      = s.processedLog ++ s.eventQueue
  ∧ (processEventQueue s).pendingResumeChecks = s.pendingResumeChecks
  ∧ (∃ tl, (processEventQueue s).processedLog = s.processedLog ++ tl)
  ∧ ((processEventQueue s).isPaused = false →
     (processEventQueue s).isProcessingQueue = false →
     (processEventQueue s).eventQueue = []) := by
  induction s using processEventQueue.induct with
  | case1 x hp =>
    rw [processEventQueue_eq_paused x hp]
    refine ⟨rfl, rfl, rfl, ⟨[], by simp⟩, ?_⟩
    intro h1 _
    rw [hp] at h1
    cases h1
  | case2 x hp hq =>
    simp only [Bool.not_eq_true] at hp
    rw [processEventQueue_eq_nil x hp hq]
    exact ⟨rfl, rfl, rfl, ⟨[], by simp⟩, fun _ _ => hq⟩
  | case3 x hp currentEvent remainingQueue hq ht =>
    simp only [Bool.not_eq_true] at hp
    rw [processEventQueue_eq_message x currentEvent remainingQueue hp hq ht]
    refine ⟨handleAgentMessageComplete_enqueuedLog _ _, ?_,
      handleAgentMessageComplete_pending _ _,
      ⟨[currentEvent], handleAgentMessageComplete_processedLog _ _⟩, ?_⟩
    · rw [handleAgentMessageComplete_processedLog,
        handleAgentMessageComplete_eventQueue, hq]
      simp
    · intro _ h2
      rw [handleAgentMessageComplete_isProcessingQueue] at h2
      cases h2
  | case4 x hp currentEvent remainingQueue hq s1 ht ih =>
    simp only [Bool.not_eq_true] at hp
    rw [processEventQueue_eq_initiated x currentEvent remainingQueue hp hq ht]
    obtain ⟨ih1, ih2, ih3, ⟨tl, ih4⟩, ih5⟩ := ih
    refine ⟨?_, ?_, ?_, ⟨currentEvent :: tl, ?_⟩, ih5⟩
    · rw [ih1, applyVotingInitiated_enqueuedLog]
    · rw [ih2, applyVotingInitiated_processedLog, applyVotingInitiated_eventQueue, hq]
      simp
    · rw [ih3, applyVotingInitiated_pending]
    · rw [ih4, applyVotingInitiated_processedLog]
      simp
  | case5 x hp currentEvent remainingQueue hq ht =>
    simp only [Bool.not_eq_true] at hp
    rw [processEventQueue_eq_vote_cast x currentEvent remainingQueue hp hq ht]
    refine ⟨handleVoteCast_enqueuedLog _ _, ?_, handleVoteCast_pending _ _,
      ⟨[currentEvent], handleVoteCast_processedLog _ _⟩, ?_⟩
    · rw [handleVoteCast_processedLog, handleVoteCast_eventQueue, hq]
      simp
    · intro _ h2
      rw [handleVoteCast_isProcessingQueue] at h2
      cases h2
  | case6 x hp currentEvent remainingQueue hq ht =>
    simp only [Bool.not_eq_true] at hp
    rw [processEventQueue_eq_voting_complete x currentEvent remainingQueue hp hq ht]
    refine ⟨handleVotingComplete_enqueuedLog _ _, ?_, handleVotingComplete_pending _ _,
      ⟨[currentEvent], handleVotingComplete_processedLog _ _⟩, ?_⟩
    · rw [handleVotingComplete_processedLog, handleVotingComplete_eventQueue, hq]
      simp
    · intro h1 _
      rw [handleVotingComplete_isPaused] at h1
      cases h1
  | case7 x hp currentEvent remainingQueue hq ht =>
    simp only [Bool.not_eq_true] at hp
    rw [processEventQueue_eq_agent_switch x currentEvent remainingQueue hp hq ht]
    refine ⟨handleAgentSwitch_enqueuedLog _ _, ?_, handleAgentSwitch_pending _ _,
      ⟨[currentEvent], handleAgentSwitch_processedLog _ _⟩, ?_⟩
    · rw [handleAgentSwitch_processedLog, handleAgentSwitch_eventQueue, hq]
      simp
    · intro h1 _
      rw [handleAgentSwitch_isPaused] at h1
      cases h1

/-- If the queue/log alignment holds before a drain run, it holds after. -/
theorem processEventQueue_alignment (s : DebateState)
    (hInv : s.enqueuedLog = s.processedLog ++ s.eventQueue) :
    (processEventQueue s).enqueuedLog
      = (processEventQueue s).processedLog ++ (processEventQueue s).eventQueue := by
  obtain ⟨h1, h2, _, _, _⟩ := processEventQueue_facts s
  rw [h1, hInv, ← h2]

/-- When the loop is entered unpaused on a non-empty queue, the head event is
the next entry appended to the processed log. -/
theorem processEventQueue_head (s : DebateState) (e : QueuedEvent)
    (rest : List QueuedEvent) (hp : s.isPaused = false)
    (hq : s.eventQueue = e :: rest) :
    ∃ tl, (processEventQueue s).processedLog = s.processedLog ++ e :: tl := by
  cases ht : e.type with
  | agent_message_complete =>
    rw [processEventQueue_eq_message s e rest hp hq ht,
      handleAgentMessageComplete_processedLog]
    exact ⟨[], rfl⟩
  | voting_initiated =>
    rw [processEventQueue_eq_initiated s e rest hp hq ht]
    obtain ⟨_, _, _, ⟨tl, h4⟩, _⟩ := processEventQueue_facts (applyVotingInitiated e
      { s with isProcessingQueue := true, eventQueue := rest,
               processedLog := s.processedLog ++ [e] })
    rw [h4, applyVotingInitiated_processedLog]
    exact ⟨tl, by simp⟩
  | vote_cast =>
    rw [processEventQueue_eq_vote_cast s e rest hp hq ht, handleVoteCast_processedLog]
    exact ⟨[], rfl⟩
  | voting_complete =>
    rw [processEventQueue_eq_voting_complete s e rest hp hq ht,
      handleVotingComplete_processedLog]
    exact ⟨[], rfl⟩
  | agent_switch =>
    rw [processEventQueue_eq_agent_switch s e rest hp hq ht,
      handleAgentSwitch_processedLog]
    exact ⟨[], rfl⟩

/-- C1: along every step of the playback engine, the enqueue history stays
equal to the processed history followed by the pending queue.  Hence enqueue
only appends to the tail (`handleSSEEvent` extends `enqueuedLog` and
`eventQueue` together), the drain loop removes only the head (moving it to
the back of `processedLog`), and events are displayed one at a time in exactly
the order they were enqueued — no element's relative order changes after it is
appended. -/
theorem C1_fifo_playback_order (s s' : DebateState)
    (hInv : s.enqueuedLog = s.processedLog ++ s.eventQueue)
    (hs : Step s s') :
    s'.enqueuedLog = s'.processedLog ++ s'.eventQueue := by
  cases hs with
  | sse now ev s =>
    unfold handleSSEEvent
    split
    · rename_i ty _
      dsimp only
      have hInv1 : (s.enqueuedLog ++ [{ type := ty, timestamp := now, data := ev.data }] :
            List QueuedEvent)
          = s.processedLog ++ (s.eventQueue ++
              [{ type := ty, timestamp := now, data := ev.data }]) := by
        rw [hInv, List.append_assoc]
      split
      · exact hInv1
      · exact processEventQueue_alignment _ hInv1
    · split
      · exact hInv
      · exact hInv
  | timerFires s =>
    unfold fireTimer
    cases s.queueProcessorTimeout with
    | none => exact hInv
    | some k =>
      cases k with
      | messageClear role delayMs =>
        dsimp only
        split
        · exact processEventQueue_alignment _ hInv
        · exact processEventQueue_alignment _ hInv
      | voteAdvance delayMs =>
        exact processEventQueue_alignment _ hInv
  | resumeCheckFires s =>
    unfold fireResumeCheck
    cases s.pendingResumeChecks with
    | zero => exact hInv
    | succ n =>
      dsimp only
      split
      · exact processEventQueue_alignment _ hInv
      · exact hInv
  | skip s =>
    exact processEventQueue_alignment _ hInv
  | pauseToggle s =>
    unfold togglePause
    split
    · exact processEventQueue_alignment _ hInv
    · exact hInv
  | modalClose s =>
    unfold closeVotingResultModal
    dsimp only
    split
    · exact hInv
    · exact hInv

theorem C1_witness :
    (handleSSEEvent 5 exVoteSSE initialState).enqueuedLog
      = (handleSSEEvent 5 exVoteSSE initialState).processedLog
          ++ (handleSSEEvent 5 exVoteSSE initialState).eventQueue :=
  C1_fifo_playback_order initialState _ rfl (Step.sse 5 exVoteSSE initialState)

/-- Delivering any SSE event to a paused store never dequeues anything: the
queueable branch either sees the processing flag set or enters a drain loop
that exits on the pause guard before touching the head. -/
theorem processEventQueue_paused_processedLog (s : DebateState)
    (hp : s.isPaused = true) :
    (processEventQueue s).processedLog = s.processedLog := by
  rw [processEventQueue_eq_paused s hp]

theorem handleSSEEvent_paused_processedLog (now : Nat) (ev : SSEEvent)
    (s : DebateState) (hp : s.isPaused = true) :
    (handleSSEEvent now ev s).processedLog = s.processedLog := by
  unfold handleSSEEvent
  split
  · rename_i ty heq
    dsimp only
    split
    · rfl
    · exact processEventQueue_paused_processedLog _ hp
  · split
    · rfl
    · rfl

/-- Delivering a queueable SSE event while the processing flag is set only
appends the event to the queue tail (and to the enqueue log). -/
theorem handleSSEEvent_busy (now : Nat) (ev : SSEEvent) (ty : QueuedEventType)
    (s : DebateState) (hpt : parseQueuedEventType ev.event = some ty)
    (hb : s.isProcessingQueue = true) :
    handleSSEEvent now ev s = { s with
      eventQueue := s.eventQueue ++ [{ type := ty, timestamp := now, data := ev.data }]
      enqueuedLog := s.enqueuedLog ++ [{ type := ty, timestamp := now, data := ev.data }] } := by
  unfold handleSSEEvent
  split
  · rename_i ty' heq
    rw [hpt] at heq
    cases heq
    dsimp only
    rw [if_pos hb]
  · rename_i heq
    rw [hpt] at heq
    cases heq

/-- C5: `calculateReadingTime` is the clamp of 300 ms per word between
3000 ms and 15000 ms, where the word count splits on whitespace runs and
drops empty tokens; in particular the empty message reads for 3000 ms, a
40-word message for 12000 ms, and a 60-word message for the 15000 ms cap. -/
theorem C5_reading_time :
    (∀ content : String,
        calculateReadingTime content
          = max 3000 (min (wordCount content * 300) 15000))
    ∧ calculateReadingTime "" = 3000
    ∧ calculateReadingTime fortyWordMessage = 12000
    ∧ calculateReadingTime sixtyWordMessage = 15000 := by
  refine ⟨fun content => ?_, by rfl, by rfl, by rfl⟩
  unfold calculateReadingTime wordCount
  dsimp only
  omega

/-- C9: a `debate_complete` SSE event is applied immediately: it clears the
debating flag and the current-speaker fields and changes nothing else — in
particular the playback queue (and both ghost logs) are untouched, so the
already queued events continue to display in their enqueued order. -/
theorem C9_debate_complete_immediate (now : Nat) (ev : SSEEvent) (s : DebateState)
    (hev : ev.event = "debate_complete") :
    handleSSEEvent now ev s
      = { s with isDebating := false, currentSpeakerId := none,
                 currentSpeakerRole := none }
    ∧ (handleSSEEvent now ev s).eventQueue = s.eventQueue
    ∧ (handleSSEEvent now ev s).processedLog = s.processedLog
    ∧ (handleSSEEvent now ev s).enqueuedLog = s.enqueuedLog := by
  have h : handleSSEEvent now ev s
      = { s with isDebating := false, currentSpeakerId := none,
                 currentSpeakerRole := none } := by
    unfold handleSSEEvent
    split
    · rename_i ty heq
      rw [hev] at heq
      simp [parseQueuedEventType] at heq
    · rw [if_pos hev]
  exact ⟨h, by rw [h], by rw [h], by rw [h]⟩

theorem C9_witness :
    handleSSEEvent 9 exDebateCompleteSSE exDrainState
      = { exDrainState with isDebating := false, currentSpeakerId := none,
                            currentSpeakerRole := none }
    ∧ (handleSSEEvent 9 exDebateCompleteSSE exDrainState).eventQueue
        = exDrainState.eventQueue
    ∧ (handleSSEEvent 9 exDebateCompleteSSE exDrainState).processedLog
        = exDrainState.processedLog
    ∧ (handleSSEEvent 9 exDebateCompleteSSE exDrainState).enqueuedLog
        = exDrainState.enqueuedLog :=
  C9_debate_complete_immediate 9 exDebateCompleteSSE exDrainState rfl

/-- C2 (amended): for a `voting_complete` event at the head of the queue the
modal's vote counts accept both the flat fields and the nested tally, with
the FLAT `in_votes`/`out_votes` fields taking precedence when both are
present, the nested tally used only as fallback, 0 when neither is supplied,
and `totalVotes = inVotes + outVotes`. -/
theorem C2_vote_count_extraction (s : DebateState) (e : QueuedEvent)
    (rest : List QueuedEvent) (hp : s.isPaused = false)
    (hq : s.eventQueue = e :: rest)
    (ht : e.type = QueuedEventType.voting_complete) :
    (processEventQueue s).votingResultModal.inVotes
        = (match e.data.in_votes, e.data.vote_tally with
           | some n, _ => n
           | none, some tally => tally.«in»
           | none, none => 0)
    ∧ (processEventQueue s).votingResultModal.outVotes
        = (match e.data.out_votes, e.data.vote_tally with
           | some n, _ => n
           | none, some tally => tally.out
           | none, none => 0)
    ∧ (processEventQueue s).votingResultModal.totalVotes
        = (processEventQueue s).votingResultModal.inVotes
            + (processEventQueue s).votingResultModal.outVotes := by
  rw [processEventQueue_eq_voting_complete s e rest hp hq ht]
  unfold handleVotingComplete
  dsimp only
  refine ⟨?_, ?_, rfl⟩
  · rcases h1 : e.data.in_votes with _ | n
    · rcases h2 : e.data.vote_tally with _ | tally
      · simp [h1, h2]
      · simp [h1, h2]
    · simp [h1]
  · rcases h1 : e.data.out_votes with _ | n
    · rcases h2 : e.data.vote_tally with _ | tally
      · simp [h1, h2]
      · simp [h1, h2]
    · simp [h1]

theorem C2_witness :
    (processEventQueue exTallyState).votingResultModal.inVotes
        = (match exTallyEvent.data.in_votes, exTallyEvent.data.vote_tally with
           | some n, _ => n
           | none, some tally => tally.«in»
           | none, none => 0)
    ∧ (processEventQueue exTallyState).votingResultModal.outVotes
        = (match exTallyEvent.data.out_votes, exTallyEvent.data.vote_tally with
           | some n, _ => n
           | none, some tally => tally.out
           | none, none => 0)
    ∧ (processEventQueue exTallyState).votingResultModal.totalVotes
        = (processEventQueue exTallyState).votingResultModal.inVotes
            + (processEventQueue exTallyState).votingResultModal.outVotes :=
  C2_vote_count_extraction exTallyState exTallyEvent [] rfl rfl rfl

/-- C2 counterexample: with `in_votes = 1`, `out_votes = 2` and a nested
tally of 5 in / 7 out present at the same time, the modal shows 1 and 2 —
the nested tally does NOT take precedence as the claim states. -/
theorem C2_counterexample :
    ¬((processEventQueue exTallyState).votingResultModal.inVotes = 5
      ∧ (processEventQueue exTallyState).votingResultModal.outVotes = 7) := by
  rw [processEventQueue_eq_voting_complete exTallyState exTallyEvent [] rfl rfl rfl]
  decide

/-- C3: processing a `voting_complete` event at the head of the queue sets
the evaluated agent's `voteStatus` to `out` exactly when the decision is
`switch` (and to `in` otherwise), clears every agent's `voteCast`, returns
the arena phase to `debating`, opens the result modal, and removes only this
one event from the queue without auto-advancing: the store ends paused and
not processing, and delivering any further SSE event dequeues nothing until
the modal is dismissed. -/
theorem C3_voting_complete_blocks (s : DebateState) (e : QueuedEvent)
    (rest : List QueuedEvent) (hp : s.isPaused = false)
    (hq : s.eventQueue = e :: rest)
    (ht : e.type = QueuedEventType.voting_complete) :
    (processEventQueue s).agents = s.agents.map (fun a =>
      { a with
        voteCast := none
        voteStatus :=
          if e.data.evaluating_agent_id = some a.id
          then some (if e.data.decision = some Decision.switch
                     then Vote.out else Vote.«in»)
          else a.voteStatus })
    ∧ (processEventQueue s).phase = Phase.debating
    ∧ (processEventQueue s).votingResultModal.isOpen = true
    ∧ (processEventQueue s).eventQueue = rest
    ∧ (processEventQueue s).processedLog = s.processedLog ++ [e]
    ∧ (processEventQueue s).isPaused = true
    ∧ (processEventQueue s).isProcessingQueue = false
    ∧ (∀ now ev, (handleSSEEvent now ev (processEventQueue s)).processedLog
        = (processEventQueue s).processedLog) := by
  rw [processEventQueue_eq_voting_complete s e rest hp hq ht]
  refine ⟨?_, rfl, rfl, rfl, rfl, rfl, rfl, ?_⟩
  · unfold handleVotingComplete
    dsimp only
    apply List.map_congr_left
    intro a _
    by_cases hid : e.data.evaluating_agent_id = some a.id
    · simp [hid]
    · simp [hid]
  · intro now ev
    exact handleSSEEvent_paused_processedLog now ev _ (handleVotingComplete_isPaused _ _)

theorem C3_witness :
    (processEventQueue exSwitchState).agents = exSwitchState.agents.map (fun a =>
      { a with
        voteCast := none
        voteStatus :=
          if exSwitchDecisionEvent.data.evaluating_agent_id = some a.id
          then some (if exSwitchDecisionEvent.data.decision = some Decision.switch
                     then Vote.out else Vote.«in»)
          else a.voteStatus })
    ∧ (processEventQueue exSwitchState).phase = Phase.debating
    ∧ (processEventQueue exSwitchState).votingResultModal.isOpen = true
    ∧ (processEventQueue exSwitchState).eventQueue = []
    ∧ (processEventQueue exSwitchState).processedLog
        = exSwitchState.processedLog ++ [exSwitchDecisionEvent]
    ∧ (processEventQueue exSwitchState).isPaused = true
    ∧ (processEventQueue exSwitchState).isProcessingQueue = false
    ∧ (∀ now ev, (handleSSEEvent now ev (processEventQueue exSwitchState)).processedLog
        = (processEventQueue exSwitchState).processedLog) :=
  C3_voting_complete_blocks exSwitchState exSwitchDecisionEvent [] rfl rfl rfl

/-- C4: processing an `agent_switch` event opens the result modal with a
decision recomputed locally from the nested vote tally — `switch` exactly
when out-votes exceed in-votes — independent of whatever `decision` field the
event itself carries (replacing that field changes nothing), and every
agent's `voteCast` is cleared in the same state update that opens the
modal. -/
theorem C4_agent_switch_local_decision (s : DebateState) (e : QueuedEvent)
    (rest : List QueuedEvent) (hp : s.isPaused = false)
    (hq : s.eventQueue = e :: rest)
    (ht : e.type = QueuedEventType.agent_switch) :
    (processEventQueue s).votingResultModal.isOpen = true
    ∧ (processEventQueue s).votingResultModal.decision
        = some (if (e.data.vote_tally.map VoteTally.out).getD 0
                    > (e.data.vote_tally.map VoteTally.«in»).getD 0
                then Decision.switch else Decision.stay)
    ∧ (∀ d : Option Decision,
        (processEventQueue { s with eventQueue :=
            { e with data := { e.data with decision := d } } :: rest
          }).votingResultModal.decision
        = (processEventQueue s).votingResultModal.decision)
    ∧ (∀ a ∈ (processEventQueue s).agents, a.voteCast = none) := by
  rw [processEventQueue_eq_agent_switch s e rest hp hq ht]
  refine ⟨rfl, rfl, ?_, ?_⟩
  · intro d
    rw [processEventQueue_eq_agent_switch
      { s with eventQueue := { e with data := { e.data with decision := d } } :: rest }
      { e with data := { e.data with decision := d } } rest hp rfl ht]
    rfl
  · intro a ha
    unfold handleAgentSwitch at ha
    dsimp only at ha
    rw [List.mem_map] at ha
    obtain ⟨b, _, rfl⟩ := ha
    rfl

theorem C4_witness :
    (processEventQueue exAgentSwitchState).votingResultModal.isOpen = true
    ∧ (processEventQueue exAgentSwitchState).votingResultModal.decision
        = some (if (exAgentSwitchEvent.data.vote_tally.map VoteTally.out).getD 0
                    > (exAgentSwitchEvent.data.vote_tally.map VoteTally.«in»).getD 0
                then Decision.switch else Decision.stay)
    ∧ (∀ d : Option Decision,
        (processEventQueue { exAgentSwitchState with eventQueue :=
            { exAgentSwitchEvent with
                data := { exAgentSwitchEvent.data with decision := d } } :: []
          }).votingResultModal.decision
        = (processEventQueue exAgentSwitchState).votingResultModal.decision)
    ∧ (∀ a ∈ (processEventQueue exAgentSwitchState).agents, a.voteCast = none) :=
  C4_agent_switch_local_decision exAgentSwitchState exAgentSwitchEvent [] rfl rfl rfl

/-- Displaying a message with non-empty content always arms the end-of-display
timer with the full reading time of that content. -/
theorem handleAgentMessageComplete_timeout (e : QueuedEvent) (s : DebateState)
    (c : String) (hc : e.data.content = some c) (hne : c ≠ "") :
    (handleAgentMessageComplete e s).queueProcessorTimeout
      = some (TimerKind.messageClear e.data.role (calculateReadingTime c)) := by
  unfold handleAgentMessageComplete
  simp only [hc]
  rw [if_neg hne]
  split
  · rfl
  · rfl

/-- A message with absent or empty content is dropped without any state
change beyond the dequeue itself (`if (!content) break`). -/
theorem handleAgentMessageComplete_empty (e : QueuedEvent) (s : DebateState)
    (hc : e.data.content = none ∨ e.data.content = some "") :
    handleAgentMessageComplete e s = s := by
  unfold handleAgentMessageComplete
  rcases hc with hc | hc
  · simp only [hc]
  · simp [hc]

/-- C6: pausing with `togglePause` during an active display cancels the armed
timer and stops processing while leaving every agent's (and the opposition's)
displayed content and the queue untouched; toggling again re-arms a fresh
full-duration reading-time timer for the still-head message event,
restarting the processing of the current head of the queue. -/
theorem C6_pause_resume (s : DebateState) (hnp : s.isPaused = false) :
    (togglePause s).queueProcessorTimeout = none
    ∧ (togglePause s).isPaused = true
    ∧ (togglePause s).isProcessingQueue = false
    ∧ (togglePause s).agents = s.agents
    ∧ (togglePause s).oppositionAgent = s.oppositionAgent
    ∧ (togglePause s).eventQueue = s.eventQueue
    ∧ (∀ e rest c, s.eventQueue = e :: rest →
        e.type = QueuedEventType.agent_message_complete →
        e.data.content = some c → c ≠ "" →
        (togglePause (togglePause s)).queueProcessorTimeout
            = some (TimerKind.messageClear e.data.role (calculateReadingTime c))
        ∧ (togglePause (togglePause s)).processedLog = s.processedLog ++ [e]
        ∧ (togglePause (togglePause s)).eventQueue = rest) := by
  have hpause : togglePause s
      = { s with queueProcessorTimeout := none, isPaused := true,
                 isProcessingQueue := false } := by
    unfold togglePause
    rw [if_neg (by rw [hnp]; exact Bool.false_ne_true)]
  refine ⟨by rw [hpause], by rw [hpause], by rw [hpause], by rw [hpause],
    by rw [hpause], by rw [hpause], ?_⟩
  intro e rest c hq ht hc hne
  have hresume : togglePause (togglePause s)
      = processEventQueue { s with queueProcessorTimeout := none,
                                   isProcessingQueue := false, isPaused := false } := by
    rw [hpause]
    rfl
  rw [hresume, processEventQueue_eq_message
    { s with queueProcessorTimeout := none, isProcessingQueue := false,
             isPaused := false } e rest rfl hq ht]
  refine ⟨?_, ?_, ?_⟩
  · exact handleAgentMessageComplete_timeout e _ c hc hne
  · rw [handleAgentMessageComplete_processedLog]
  · rw [handleAgentMessageComplete_eventQueue]

theorem C6_witness :
    (togglePause exMsgState).queueProcessorTimeout = none
    ∧ (togglePause exMsgState).isPaused = true
    ∧ (togglePause exMsgState).isProcessingQueue = false
    ∧ (togglePause exMsgState).agents = exMsgState.agents
    ∧ (togglePause exMsgState).oppositionAgent = exMsgState.oppositionAgent
    ∧ (togglePause exMsgState).eventQueue = exMsgState.eventQueue
    ∧ (∀ e rest c, exMsgState.eventQueue = e :: rest →
        e.type = QueuedEventType.agent_message_complete →
        e.data.content = some c → c ≠ "" →
        (togglePause (togglePause exMsgState)).queueProcessorTimeout
            = some (TimerKind.messageClear e.data.role (calculateReadingTime c))
        ∧ (togglePause (togglePause exMsgState)).processedLog
            = exMsgState.processedLog ++ [e]
        ∧ (togglePause (togglePause exMsgState)).eventQueue = rest) :=
  C6_pause_resume exMsgState rfl

/-- C7: `skipCurrentEvent` always cancels the armed timer and clears the
displayed streaming content of every agent and of the opposition; when the
driver is not blocked (not paused) and the queue is non-empty it immediately
advances into the next queued event, while when the driver is paused (blocked
on the result modal) or the queue is empty it advances nothing: the queue,
the processed log, and the modal are unchanged. -/
theorem C7_skip_behavior (s : DebateState) :
    (s.isPaused = true →
        (skipCurrentEvent s).eventQueue = s.eventQueue
      ∧ (skipCurrentEvent s).processedLog = s.processedLog
      ∧ (skipCurrentEvent s).queueProcessorTimeout = none
      ∧ (skipCurrentEvent s).votingResultModal = s.votingResultModal
      ∧ (∀ a ∈ (skipCurrentEvent s).agents,
            a.streamingContent = "" ∧ a.isSpeaking = false)
      ∧ (∀ o, (skipCurrentEvent s).oppositionAgent = some o →
            o.streamingContent = "" ∧ o.isSpeaking = false))
    ∧ (s.eventQueue = [] →
        (skipCurrentEvent s).eventQueue = []
      ∧ (skipCurrentEvent s).processedLog = s.processedLog
      ∧ (skipCurrentEvent s).queueProcessorTimeout = none
      ∧ (∀ a ∈ (skipCurrentEvent s).agents,
            a.streamingContent = "" ∧ a.isSpeaking = false)
      ∧ (∀ o, (skipCurrentEvent s).oppositionAgent = some o →
            o.streamingContent = "" ∧ o.isSpeaking = false))
    ∧ (s.isPaused = false → ∀ e rest, s.eventQueue = e :: rest →
        ∃ tl, (skipCurrentEvent s).processedLog = s.processedLog ++ e :: tl) := by
  have hskip : skipCurrentEvent s
      = processEventQueue { s with
          queueProcessorTimeout := none
          agents := s.agents.map (fun a =>
            { a with streamingContent := "", isSpeaking := false })
          oppositionAgent := s.oppositionAgent.map (fun opp =>
            { opp with streamingContent := "", isSpeaking := false }) } := rfl
  refine ⟨?_, ?_, ?_⟩
  · intro hp
    rw [hskip, processEventQueue_eq_paused _ (by exact hp)]
    refine ⟨rfl, rfl, rfl, rfl, ?_, ?_⟩
    · intro a ha
      rw [List.mem_map] at ha
      obtain ⟨b, _, rfl⟩ := ha
      exact ⟨rfl, rfl⟩
    · intro o ho
      rw [Option.map_eq_some'] at ho
      obtain ⟨op, _, rfl⟩ := ho
      exact ⟨rfl, rfl⟩
  · intro hq
    have hres : skipCurrentEvent s
        = { s with
            queueProcessorTimeout := none
            agents := s.agents.map (fun a =>
              { a with streamingContent := "", isSpeaking := false })
            oppositionAgent := s.oppositionAgent.map (fun opp =>
              { opp with streamingContent := "", isSpeaking := false })
            isProcessingQueue := false } := by
      rw [hskip]
      cases hsp : s.isPaused
      · rw [processEventQueue_eq_nil _ (by exact rfl) (by exact hq)]
      · rw [processEventQueue_eq_paused _ (by exact rfl)]
    rw [hres]
    refine ⟨hq, rfl, rfl, ?_, ?_⟩
    · intro a ha
      rw [List.mem_map] at ha
      obtain ⟨b, _, rfl⟩ := ha
      exact ⟨rfl, rfl⟩
    · intro o ho
      rw [Option.map_eq_some'] at ho
      obtain ⟨op, _, rfl⟩ := ho
      exact ⟨rfl, rfl⟩
  · intro hp e rest hq
    rw [hskip]
    exact processEventQueue_head _ e rest hp hq

theorem C7_witness :
    ∃ tl, (skipCurrentEvent exMsgState).processedLog
        = exMsgState.processedLog ++ exMsgEvent :: tl :=
  (C7_skip_behavior exMsgState).2.2 rfl exMsgEvent [] rfl

/-- C10: dequeuing an `agent_message_complete` event whose content is absent
or empty removes it from the queue but performs no display mutation, arms no
timer and does not re-enter the loop, leaving `isProcessingQueue` stuck at
`true`; queueable events arriving afterwards are appended to the queue but
nothing is dequeued, until an external action such as skip forces the next
event to process. -/
theorem C10_empty_content_stall (s : DebateState) (e : QueuedEvent)
    (rest : List QueuedEvent) (hp : s.isPaused = false)
    (hq : s.eventQueue = e :: rest)
    (ht : e.type = QueuedEventType.agent_message_complete)
    (hc : e.data.content = none ∨ e.data.content = some "") :
    (processEventQueue s).eventQueue = rest
    ∧ (processEventQueue s).agents = s.agents
    ∧ (processEventQueue s).oppositionAgent = s.oppositionAgent
    ∧ (processEventQueue s).queueProcessorTimeout = s.queueProcessorTimeout
    ∧ (processEventQueue s).votingResultModal = s.votingResultModal
    ∧ (processEventQueue s).isProcessingQueue = true
    ∧ (processEventQueue s).processedLog = s.processedLog ++ [e]
    ∧ (∀ now ev ty, parseQueuedEventType ev.event = some ty →
        (handleSSEEvent now ev (processEventQueue s)).eventQueue
          = rest ++ [{ type := ty, timestamp := now, data := ev.data }]
        ∧ (handleSSEEvent now ev (processEventQueue s)).processedLog
            = (processEventQueue s).processedLog)
    ∧ (∀ e2 r2, rest = e2 :: r2 →
        ∃ tl, (skipCurrentEvent (processEventQueue s)).processedLog
          = (processEventQueue s).processedLog ++ e2 :: tl) := by
  rw [processEventQueue_eq_message s e rest hp hq ht,
      handleAgentMessageComplete_empty e _ hc]
  refine ⟨rfl, rfl, rfl, rfl, rfl, rfl, rfl, ?_, ?_⟩
  · intro now ev ty hpt
    rw [handleSSEEvent_busy now ev ty _ hpt rfl]
    exact ⟨rfl, rfl⟩
  · intro e2 r2 hr
    exact processEventQueue_head _ e2 r2 (by exact hp) (by exact hr)

theorem C10_witness :
    (processEventQueue exEmptyMsgState).eventQueue = [exVoteEvent]
    ∧ (processEventQueue exEmptyMsgState).agents = exEmptyMsgState.agents
    ∧ (processEventQueue exEmptyMsgState).oppositionAgent
        = exEmptyMsgState.oppositionAgent
    ∧ (processEventQueue exEmptyMsgState).queueProcessorTimeout
        = exEmptyMsgState.queueProcessorTimeout
    ∧ (processEventQueue exEmptyMsgState).votingResultModal
        = exEmptyMsgState.votingResultModal
    ∧ (processEventQueue exEmptyMsgState).isProcessingQueue = true
    ∧ (processEventQueue exEmptyMsgState).processedLog
        = exEmptyMsgState.processedLog ++ [exEmptyMsgEvent]
    ∧ (∀ now ev ty, parseQueuedEventType ev.event = some ty →
        (handleSSEEvent now ev (processEventQueue exEmptyMsgState)).eventQueue
          = [exVoteEvent] ++ [{ type := ty, timestamp := now, data := ev.data }]
        ∧ (handleSSEEvent now ev (processEventQueue exEmptyMsgState)).processedLog
            = (processEventQueue exEmptyMsgState).processedLog)
    ∧ (∀ e2 r2, [exVoteEvent] = e2 :: r2 →
        ∃ tl, (skipCurrentEvent (processEventQueue exEmptyMsgState)).processedLog
          = (processEventQueue exEmptyMsgState).processedLog ++ e2 :: tl) :=
  C10_empty_content_stall exEmptyMsgState exEmptyMsgEvent [exVoteEvent]
    rfl rfl rfl (Or.inr rfl)

/-- Unfolding of one deferred resume check when at least one is pending. -/
theorem fireResumeCheck_succ (x : DebateState) (n : Nat)
    (hpend : x.pendingResumeChecks = n + 1) :
    fireResumeCheck x
      = (if ({ x with pendingResumeChecks := n }).isPaused = false
            ∧ ({ x with pendingResumeChecks := n }).isProcessingQueue = false
         then processEventQueue { x with pendingResumeChecks := n }
         else { x with pendingResumeChecks := n }) := by
  unfold fireResumeCheck
  rw [hpend]

/-- C8: closing the voting-result modal resets every modal field to its
closed default and clears the pause flag, and schedules a resume only when
the snapshot has phase `debating`, a non-empty queue, and no active
processing (otherwise the close is exactly the modal/pause reset and the
driver stays idle).  Even after two rapid closes — two scheduled checks —
processing restarts exactly once: the first deferred check dequeues the head
event, and the second check dequeues nothing and leaves the queue and the
processed log unchanged. -/
theorem C8_modal_close_exactly_once (s : DebateState)
    (hProc : s.isProcessingQueue = false)
    (hPhase : s.phase = Phase.debating)
    (hne : s.eventQueue ≠ []) :
    (closeVotingResultModal s).votingResultModal = closedModalDefaults
    ∧ (closeVotingResultModal s).isPaused = false
    ∧ (closeVotingResultModal (closeVotingResultModal s)).pendingResumeChecks
        = s.pendingResumeChecks + 2
    ∧ (∃ e rest tl, s.eventQueue = e :: rest
        ∧ (fireResumeCheck (closeVotingResultModal
            (closeVotingResultModal s))).processedLog = s.processedLog ++ e :: tl)
    ∧ (fireResumeCheck (fireResumeCheck (closeVotingResultModal
          (closeVotingResultModal s)))).processedLog
        = (fireResumeCheck (closeVotingResultModal
            (closeVotingResultModal s))).processedLog
    ∧ (fireResumeCheck (fireResumeCheck (closeVotingResultModal
          (closeVotingResultModal s)))).eventQueue
        = (fireResumeCheck (closeVotingResultModal
            (closeVotingResultModal s))).eventQueue
    ∧ (∀ x : DebateState,
        (x.phase ≠ Phase.debating ∨ x.eventQueue = [] ∨ x.isProcessingQueue = true) →
        closeVotingResultModal x
          = { x with votingResultModal := closedModalDefaults, isPaused := false }) := by
  obtain ⟨e, rest, hq⟩ : ∃ e rest, s.eventQueue = e :: rest := by
    cases hqq : s.eventQueue with
    | nil => exact absurd hqq hne
    | cons a l => exact ⟨a, l, rfl⟩
  have hlen : s.eventQueue.length > 0 := by rw [hq]; simp
  have hc1 : closeVotingResultModal s
      = { s with votingResultModal := closedModalDefaults, isPaused := false,
                 isProcessingQueue := false,
                 pendingResumeChecks := s.pendingResumeChecks + 1 } := by
    unfold closeVotingResultModal
    rw [if_pos ⟨hPhase, hlen, hProc⟩, hProc]
  have hc2 : closeVotingResultModal (closeVotingResultModal s)
      = { s with votingResultModal := closedModalDefaults, isPaused := false,
                 isProcessingQueue := false,
                 pendingResumeChecks := s.pendingResumeChecks + 2 } := by
    rw [hc1]
    unfold closeVotingResultModal
    rw [if_pos ⟨hPhase, (by exact hlen), rfl⟩]
  have hf1 : fireResumeCheck (closeVotingResultModal (closeVotingResultModal s))
      = processEventQueue
          { s with votingResultModal := closedModalDefaults, isPaused := false,
                   isProcessingQueue := false,
                   pendingResumeChecks := s.pendingResumeChecks + 1 } := by
    rw [hc2]
    rfl
  obtain ⟨_, _, hpend, _, hstop⟩ := processEventQueue_facts
    { s with votingResultModal := closedModalDefaults, isPaused := false,
             isProcessingQueue := false,
             pendingResumeChecks := s.pendingResumeChecks + 1 }
  have hsecond :
      (fireResumeCheck (fireResumeCheck (closeVotingResultModal
          (closeVotingResultModal s)))).processedLog
        = (fireResumeCheck (closeVotingResultModal
            (closeVotingResultModal s))).processedLog
      ∧ (fireResumeCheck (fireResumeCheck (closeVotingResultModal
          (closeVotingResultModal s)))).eventQueue
        = (fireResumeCheck (closeVotingResultModal
            (closeVotingResultModal s))).eventQueue := by
    rw [hf1]
    rw [fireResumeCheck_succ _ s.pendingResumeChecks (by exact hpend)]
    by_cases hguard :
        (processEventQueue
          { s with votingResultModal := closedModalDefaults, isPaused := false,
                   isProcessingQueue := false,
                   pendingResumeChecks := s.pendingResumeChecks + 1 }).isPaused = false
        ∧ (processEventQueue
          { s with votingResultModal := closedModalDefaults, isPaused := false,
                   isProcessingQueue := false,
                   pendingResumeChecks := s.pendingResumeChecks + 1 }).isProcessingQueue
            = false
    · rw [if_pos (by exact hguard)]
      rw [processEventQueue_eq_nil _ (by exact hguard.1)
        (by exact hstop hguard.1 hguard.2)]
      exact ⟨rfl, rfl⟩
    · rw [if_neg (by exact fun h => hguard ⟨h.1, h.2⟩)]
      exact ⟨rfl, rfl⟩
  refine ⟨by rw [hc1], by rw [hc1], by rw [hc2], ?_, hsecond.1, hsecond.2, ?_⟩
  · obtain ⟨tl, htl⟩ := processEventQueue_head
      { s with votingResultModal := closedModalDefaults, isPaused := false,
               isProcessingQueue := false,
               pendingResumeChecks := s.pendingResumeChecks + 1 }
      e rest rfl (by exact hq)
    exact ⟨e, rest, tl, hq, by rw [hf1]; exact htl⟩
  · intro x hx
    unfold closeVotingResultModal
    rw [if_neg ?_]
    rintro ⟨h1, h2, h3⟩
    rcases hx with hx | hx | hx
    · exact hx h1
    · rw [hx] at h2
      simp at h2
    · rw [hx] at h3
      cases h3

theorem C8_witness :
    (closeVotingResultModal exBlockedState).votingResultModal = closedModalDefaults
    ∧ (closeVotingResultModal exBlockedState).isPaused = false
    ∧ (closeVotingResultModal (closeVotingResultModal exBlockedState)).pendingResumeChecks
        = exBlockedState.pendingResumeChecks + 2
    ∧ (∃ e rest tl, exBlockedState.eventQueue = e :: rest
        ∧ (fireResumeCheck (closeVotingResultModal
            (closeVotingResultModal exBlockedState))).processedLog
          = exBlockedState.processedLog ++ e :: tl)
    ∧ (fireResumeCheck (fireResumeCheck (closeVotingResultModal
          (closeVotingResultModal exBlockedState)))).processedLog
        = (fireResumeCheck (closeVotingResultModal
            (closeVotingResultModal exBlockedState))).processedLog
    ∧ (fireResumeCheck (fireResumeCheck (closeVotingResultModal
          (closeVotingResultModal exBlockedState)))).eventQueue
        = (fireResumeCheck (closeVotingResultModal
            (closeVotingResultModal exBlockedState))).eventQueue
    ∧ (∀ x : DebateState,
        (x.phase ≠ Phase.debating ∨ x.eventQueue = [] ∨ x.isProcessingQueue = true) →
        closeVotingResultModal x
          = { x with votingResultModal := closedModalDefaults, isPaused := false }) :=
  C8_modal_close_exactly_once exBlockedState rfl rfl (by simp [exBlockedState])
